import Mathlib

/-!
# Shallow embedding of the ts_pmd device-communication core

This file embeds the device communication and recovery protocol of the
`ts_pmd` repository (`python/lsst/ts/pmd/component.py` and
`python/lsst/ts/pmd/mock_server.py`) and proves properties of the
embedded definitions.

Modelling conventions:

* The hub readings travel as fixed-format decimal strings
  (`"<slot>:<sign><d>.<dddddd>"`), so a reading is modelled exactly as a
  decimal number `PyDec` (an integer mantissa over a power of ten);
  a slot holding Python `math.nan` is modelled as `none : Option PyDec`.
* The transport is modelled by a `Hub` function from the raw line written
  to the socket (CR terminator included) to the outcome the subsequent
  `readuntil(b"\r")` produces: either the line the hub sent back, or a
  timeout.
* Each operation returns, besides its Python return value or raised
  exception (`Except Err`), the list of raw lines it wrote to the socket,
  so that statements about network traffic can be made.
* Python exceptions become constructors of `Err`.
-/

deriving instance DecidableEq for Except

namespace TsPmd

/-- An exact decimal value `mantissa / 10 ^ scale`, the model of the Python
floats that appear on the hub wire (which are always printed and parsed in
fixed six-decimal notation). -/
structure PyDec where
  mantissa : Int
  scale : Nat
deriving DecidableEq, Repr

/-- The rational value of a `PyDec`. -/
def PyDec.toRat (d : PyDec) : ℚ := (d.mantissa : ℚ) / (10 : ℚ) ^ d.scale

/-- Python truthiness of the float stored in a position slot:
`bool(0.0)` is `False`; every other float — `float("nan")` included — is
`True`.  A slot holding NaN is modelled as `none`, hence `pyTruthy none =
true`. -/
def pyTruthy : Option PyDec → Bool
  | none => true
  | some d => d.mantissa != 0

/-- The characters Python's `float(str)` strips from both ends of its
argument (`str.strip()` whitespace). -/
def isPySpace (c : Char) : Bool :=
  c = ' ' || c = '\t' || c = '\n' || c = '\r' || c = '\x0b' || c = '\x0c'

/-- The numeric value of a decimal digit character, `none` otherwise. -/
def digitVal? (c : Char) : Option Nat :=
  if c.isDigit then some (c.toNat - 48) else none

/-- Left fold of decimal digits into a natural number; `none` as soon as a
non-digit is met. -/
def digitsToNatAux : Nat → List Char → Option Nat
  | acc, [] => some acc
  | acc, c :: rest =>
    match digitVal? c with
    | some d => digitsToNatAux (acc * 10 + d) rest
    | none => none

/-- Python `str.split(sep)` for a one-character separator, on character lists.
Like Python's `split`, it never returns an empty list of groups. -/
def splitOnChar (sep : Char) : List Char → List (List Char)
  | [] => [[]]
  | c :: rest =>
    let r := splitOnChar sep rest
    if c = sep then [] :: r
    else
      match r with
      | [] => [[c]]
      | g :: gs => (c :: g) :: gs

/-- Digits (with at most one decimal point) to a `PyDec`; `none` when the
text is not a plain decimal numeral.  Helper of `pyFloat?`. -/
def pyDecOfDigits (neg : Bool) (l : List Char) : Option PyDec :=
  let intPart := l.takeWhile (· ≠ '.')
  match l.dropWhile (· ≠ '.') with
  | [] =>
    if intPart.isEmpty then none
    else (digitsToNatAux 0 intPart).map fun n =>
      ⟨if neg then -(n : Int) else (n : Int), 0⟩
  | _ :: frac =>
    if frac.any (· = '.') then none
    else if intPart.isEmpty && frac.isEmpty then none
    else
      match digitsToNatAux 0 intPart, digitsToNatAux 0 frac with
      | some ip, some fp =>
        let m : Int := (ip : Int) * (10 : Int) ^ frac.length + (fp : Int)
        some ⟨if neg then -m else m, frac.length⟩
      | _, _ => none

/-- Model of Python `float(s)` restricted to plain decimal notation:
optional surrounding whitespace, an optional sign, then digits with at most
one decimal point and at least one digit.  This covers every string the hub
protocol produces (`"<sign><d>.<dddddd>"`, possibly with a trailing CR);
exponent notation, `inf`/`nan` spellings and digit-group underscores are
outside the model. -/
def pyFloat? (s : String) : Option PyDec :=
  let t := (((s.toList.dropWhile isPySpace).reverse.dropWhile isPySpace).reverse)
  match t with
  | [] => none
  | c :: rest =>
    if c = '-' then pyDecOfDigits true rest
    else if c = '+' then pyDecOfDigits false rest
    else pyDecOfDigits false (c :: rest)

/-- Outcome of one `await asyncio.wait_for(self.reader.readuntil(b"\r"), ...)`
as `MitutoyoComponent.send_msg` observes it: either the reply bytes
(decoded), or a timeout. -/
inductive ReadOutcome
  | data (s : String)
  | timeout
deriving DecidableEq, Repr

/-- A hub, as the Device Link observes it: the read outcome produced for
each raw line written to the socket (CR terminator included). -/
def Hub : Type := String → ReadOutcome

/-- The exceptions of `component.py`, plus the spec's error taxonomy entry
for an invalid recovery-round count (`ConfigurationError`, spec section 7),
which the spec-modelled Recovery Controller raises. -/
inductive Err
  | notConnected
  | timeoutError
  | valueError
  | ioError
  | configurationError
deriving DecidableEq, Repr

/-- Embedding of `MitutoyoComponent.send_msg` (component.py lines 109-150).  Under the
lock: raise `RuntimeError("Not connected")` when not connected; otherwise
append `"\r"`, write the encoded line, read until `b"\r"` under the short
timeout.  A reply of `b""` is normalized to `b"\r"` ("Channel timed out or
empty"); an `asyncio.TimeoutError` escaping `wait_for` is NOT caught and
propagates.  Returns the reply (or exception) and the lines written. -/
def send_msg (connected : Bool) (hub : Hub) (msg : String) :
    Except Err String × List String :=
  if connected then
    match hub (msg ++ "\r") with
    | .data raw =>
      if raw != "" then (.ok raw, [msg ++ "\r"])
      else (.ok "\r", [msg ++ "\r"])
    | .timeout => (.error .timeoutError, [msg ++ "\r"])
  else (.error .notConnected, [])

/-- The position-reply decoder of `get_slots_position` (component.py lines
186-187): `float(reply.decode().split(":")[-1])`. -/
def parseReply (reply : String) : Option PyDec :=
  pyFloat? (String.mk ((splitOnChar ':' reply.toList).getLastD []))

/-- component.py line 195 reads
`self.read_error_count == 2 and self.multiplexer_recovery()`: the call is
not awaited, so the right conjunct evaluates to a coroutine object (which
never runs), and Python coroutine objects are truthy — the conjunct is
always `True`. -/
def multiplexerRecoveryCoroutineTruthy : Bool := true

/-- The loop state of `get_slots_position`: the position list being filled,
`self.read_error_count`, and the raw lines written so far. -/
structure PollState where
  position : List (Option PyDec)
  count : Nat
  sent : List String
deriving DecidableEq, Repr

/-- The slot loop of `get_slots_position` (component.py lines 178-204),
slot index threaded explicitly.  For each configured name: query the
1-based slot index; a non-`"\r"` reply is parsed (a `float()` failure
raises `ValueError`); a `"\r"` reply stores NaN and updates
`read_error_count` (reset to 0 when it equals 2 — see
`multiplexerRecoveryCoroutineTruthy` — else incremented).  The loop never
breaks early on an empty reply. -/
def gspGo (connected : Bool) (hub : Hub) :
    Nat → List String → PollState → Except Err Unit × PollState
  | _, [], st => (.ok (), st)
  | i, name :: rest, st =>
    if name = "" then gspGo connected hub (i + 1) rest st
    else
      match send_msg connected hub (Nat.repr (i + 1)) with
      | (.error e, w) => (.error e, { st with sent := st.sent ++ w })
      | (.ok reply, w) =>
        if reply != "\r" then
          match parseReply reply with
          | some q =>
            gspGo connected hub (i + 1) rest
              { position := st.position.set i (some q), count := st.count,
                sent := st.sent ++ w }
          | none => (.error .valueError, { st with sent := st.sent ++ w })
        else
          gspGo connected hub (i + 1) rest
            { position := st.position.set i none,
              count :=
                if st.count == 2 && multiplexerRecoveryCoroutineTruthy then 0
                else st.count + 1,
              sent := st.sent ++ w }

/-- Embedding of `MitutoyoComponent.get_slots_position` (component.py lines 152-211).
Raises when not connected, before any I/O; otherwise starts from eight
NaNs and runs the slot loop; afterwards returns the position list when
`read_error_count <= 3` and raises
`IOError("Three continuous reads of sensor ended in error.")` otherwise.
Returns (result, final `read_error_count`, lines written). -/
def get_slots_position (connected : Bool) (hub : Hub) (names : List String)
    (count0 : Nat) : Except Err (List (Option PyDec)) × Nat × List String :=
  if connected then
    match gspGo connected hub 0 names ⟨List.replicate 8 none, count0, []⟩ with
    | (.ok _, st) =>
      if st.count ≤ 3 then (.ok st.position, st.count, st.sent)
      else (.error .ioError, st.count, st.sent)
    | (.error e, st) => (.error e, st.count, st.sent)
  else (.error .notConnected, count0, [])

/-- The success loop of `multiplexer_recovery` (component.py lines
242-253): `success` starts `True` and is cleared for every configured slot
whose position is FALSY in Python (`elif positions[i]:`) — so a reading of
`0.0` clears it, while a slot left `math.nan` does not (`bool(nan)` is
`True`). -/
def recoverySuccessGo (positions : List (Option PyDec)) :
    Nat → List String → Bool
  | _, [] => true
  | i, name :: rest =>
    if name = "" then recoverySuccessGo positions (i + 1) rest
    else pyTruthy (positions.getD i none) && recoverySuccessGo positions (i + 1) rest

/-- Embedding of `MitutoyoComponent.multiplexer_recovery` (component.py lines 213-255).
Raises `RuntimeError` when not connected, before any I/O.  Otherwise:
`reply = await self.send_msg("SPC")` (awaited — the line IS written), a 5 s
sleep, then `reply3 = self.send_msg("QU")` — NOT awaited, so the coroutine
never runs and no `"QU"` line is ever written — a 2 s sleep, then
`positions = await self.get_slots_position()` and the success loop.
Returns (success flag or exception, final `read_error_count`, lines
written). -/
def multiplexer_recovery (connected : Bool) (hub : Hub) (names : List String)
    (count0 : Nat) : Except Err Bool × Nat × List String :=
  if connected then
    match send_msg connected hub "SPC" with
    | (.error e, w) => (.error e, count0, w)
    | (.ok _, w) =>
      match get_slots_position connected hub names count0 with
      | (.ok positions, count1, w2) =>
        (.ok (recoverySuccessGo positions 0 names), count1, w ++ w2)
      | (.error e, count1, w2) => (.error e, count1, w ++ w2)
  else (.error .notConnected, count0, [])

/-- Zero-pad a numeral string on the left to the given width
(`mock_server.py` prints fractions with `:+f`, six fractional digits). -/
def padZeros (w : Nat) (s : String) : String :=
  String.mk (List.replicate (w - s.length) '0') ++ s

/-- Python `f"{x:+f}"` on an exact decimal: a mandatory sign followed by
the value with exactly six decimal places (ties rounded half to even, as
CPython's float formatting does). -/
def formatPlusF (d : PyDec) : String :=
  let sign := if d.mantissa < 0 then "-" else "+"
  let num := d.mantissa.natAbs * 10 ^ 6
  let den := 10 ^ d.scale
  let q := num / den
  let r := num % den
  let n :=
    if 2 * r < den then q
    else if den < 2 * r then q + 1
    else if q % 2 = 0 then q else q + 1
  sign ++ Nat.repr (n / 10 ^ 6) ++ "." ++ padZeros 6 (Nat.repr (n % 10 ^ 6))

/-- Python `int(s)` on the digit strings `"1"`-`"8"` admitted by the mock
hub's command table (the only arguments the dispatch ever passes). -/
def pyIntDigits (s : String) : Nat := (digitsToNatAux 0 s.toList).getD 0

/-- The default position table of `MockMitutoyoHub`
(`[0.00009, 0.001, 0.002, 0.003, nan, 0.005, nan, nan]`). -/
def defaultMockPositions : List (Option PyDec) :=
  [some ⟨9, 5⟩, some ⟨1, 3⟩, some ⟨2, 3⟩, some ⟨3, 3⟩, none, some ⟨5, 3⟩,
    none, none]

/-- Embedding of `MockMitutoyoHub.get_position` (mock_server.py lines 95-101): the
slot's table value formatted as `f"{index}:{value:+f}\r"`, or a bare
`"\r"` when the table holds NaN. -/
def mockGetPosition (positions : List (Option PyDec)) (index : String) :
    String :=
  match positions.getD (pyIntDigits index - 1) none with
  | some p => index ++ ":" ++ formatPlusF p ++ "\r"
  | none => "\r"

/-- The simulated hub as the connected client observes it through
`MockServer.cmd_loop` and `MockMitutoyoHub.parse_message`: the received
line is stripped of trailing `"\r\n"`; the digit commands `"1"`-`"8"`
reply with `get_position`.  For any other line the client's read times
out: for `"SPC"`/`"QU"` the dispatch `self.commands[msg](msg)` calls the
zero-parameter bound method `multiplexer_recovery` with an argument
(`TypeError` server side), and even its intended reply `""` would put zero
bytes on the socket; unknown commands raise `NotImplementedError` server
side.  Either way no terminated line ever reaches the client. -/
def mockHub (positions : List (Option PyDec)) : Hub := fun line =>
  let msg :=
    String.mk (line.toList.reverse.dropWhile fun c => c = '\r' || c = '\n').reverse
  if (List.range 8).any (fun k => msg = Nat.repr (k + 1)) then
    .data (mockGetPosition positions msg)
  else .timeout

/-- Modelled from the spec: a single pass of the Channel Poller,
`pollOnce` (spec section 4.3).  The source's telemetry loop (csc.py line
115) calls `self.component.determine_channel_positions()`, a method absent
from the source tree; sections 4.3-4.4 of the spec describe the
poller/recovery pair behind it.  Scan configured slots in ascending order
through the source's `send_msg`; a (normalized) empty reply `"\r"` stops
the scan immediately with `isok = false`; otherwise the reply is parsed
and stored; when every configured slot yields a value, `isok = true`.
Arguments: current slot index, remaining names, vector so far, lines
written so far. -/
def specPollOnceGo (hub : Hub) :
    Nat → List String → List (Option PyDec) → List String →
      Except Err (List (Option PyDec) × Bool) × List String
  | _, [], pos, sent => (.ok (pos, true), sent)
  | i, name :: rest, pos, sent =>
    if name = "" then specPollOnceGo hub (i + 1) rest pos sent
    else
      match send_msg true hub (Nat.repr (i + 1)) with
      | (.error e, w) => (.error e, sent ++ w)
      | (.ok reply, w) =>
        if reply = "\r" then (.ok (pos, false), sent ++ w)
        else
          match parseReply reply with
          | some q => specPollOnceGo hub (i + 1) rest (pos.set i (some q)) (sent ++ w)
          | none => (.error .valueError, sent ++ w)

/-- Modelled from the spec: one poll pass starting from eight NaNs. -/
def specPollOnce (hub : Hub) (names : List String) :
    Except Err (List (Option PyDec) × Bool) × List String :=
  specPollOnceGo hub 0 names (List.replicate 8 none) []

/-- Modelled from the spec: the bounded retry loop of the Recovery
Controller (spec section 4.4).  While the last pass was not ok and rounds
remain: send `"SPC"`, wait ~5 s, send `"QU"`, wait ~2 s, re-poll.
Arguments: remaining rounds, last pass result, attempts so far, rounds so
far, lines written so far.  Returns ((vector, isok), attempts, rounds). -/
def specRecoveryGo (hub : Hub) (names : List String) :
    Nat → List (Option PyDec) × Bool → Nat → Nat → List String →
      Except Err ((List (Option PyDec) × Bool) × Nat × Nat) × List String
  | 0, last, attempts, rounds, sent => (.ok (last, attempts, rounds), sent)
  | k + 1, last, attempts, rounds, sent =>
    if last.2 then (.ok (last, attempts, rounds), sent)
    else
      match send_msg true hub "SPC" with
      | (.error e, w) => (.error e, sent ++ w)
      | (.ok _, w1) =>
        match send_msg true hub "QU" with
        | (.error e, w) => (.error e, sent ++ w1 ++ w)
        | (.ok _, w2) =>
          match specPollOnce hub names with
          | (.error e, w3) => (.error e, sent ++ w1 ++ w2 ++ w3)
          | (.ok res, w3) =>
            specRecoveryGo hub names k res (attempts + 1) (rounds + 1)
              (sent ++ w1 ++ w2 ++ w3)

/-- Modelled from the spec: the Recovery Controller entry point
`pollWithRecovery(maxResets)` (spec section 4.4), the method
`determine_channel_positions` that csc.py calls but that is absent from
the source tree.  A negative `maxResets` is rejected as a
`ConfigurationError` eagerly, before any I/O.  Otherwise: one initial
`pollOnce` attempt, then up to `maxResets` recovery rounds, breaking as
soon as a pass reports `isok = true`.  Returns ((vector, isok), total
attempts, recovery rounds) and the lines written. -/
def pollWithRecovery (hub : Hub) (names : List String) (maxResets : Int) :
    Except Err ((List (Option PyDec) × Bool) × Nat × Nat) × List String :=
  if maxResets < 0 then (.error .configurationError, [])
  else
    match specPollOnce hub names with
    | (.error e, w) => (.error e, w)
    | (.ok first, w) => specRecoveryGo hub names maxResets.toNat first 1 0 w

/-! ## Concrete fixtures used by the theorems -/

/-- A hub that answers every command with an empty line: the
fault-injection behaviour of spec section 4.5 (every channel unreadable,
every pass incomplete). -/
def alwaysEmptyHub : Hub := fun _ => .data ""

/-- A hub whose reads always time out. -/
def alwaysTimeoutHub : Hub := fun _ => .timeout

/-- Slot configuration with a single device, in slot 1. -/
def oneSlotNames : List String := ["a", "", "", "", "", "", "", ""]

/-- Slot configuration with devices in slots 1 and 2. -/
def c1names : List String := ["a", "b", "", "", "", "", "", ""]

/-- A hub that answers the slot-2 query with `"2:+0.001000\r"` and
everything else with an empty line. -/
def c1hub : Hub := fun line =>
  if line = "2\r" then .data "2:+0.001000\r" else .data ""

/-- A hub that answers the slot-1 query with the reading `0.0`
(`"1:+0.000000\r"`) and everything else with an empty line. -/
def zeroHub : Hub := fun line =>
  if line = "1\r" then .data "1:+0.000000\r" else .data ""

/-- Slot configuration with a single device, in slot 2. -/
def slot2Names : List String := ["", "b", "", "", "", "", "", ""]

/-- Slot configuration with a single device, in slot 3. -/
def slot3Names : List String := ["", "", "c", "", "", "", "", ""]

/-- Slot configuration with no devices. -/
def blankNames : List String := ["", "", "", "", "", "", "", ""]

/-- The hub's answer to query `q` lets the slot loop proceed without an
exception: the read does not time out, and a reply that is neither empty
nor a bare CR parses as a number. -/
def goodReply (hub : Hub) (q : String) : Bool :=
  match hub q with
  | .timeout => false
  | .data s => s = "" || s = "\r" || (parseReply s).isSome

/-- The queries a full pass starting at slot index `i` writes: one
`"<1-based index>\r"` line per configured name, in ascending order. -/
def configuredQueries : Nat → List String → List String
  | _, [] => []
  | i, name :: rest =>
    if name = "" then configuredQueries (i + 1) rest
    else (Nat.repr (i + 1) ++ "\r") :: configuredQueries (i + 1) rest

/-!
## Theorems
-/

/-- Claim C6: every I/O operation invoked while the link is Disconnected —
`send_msg`, `get_slots_position`, `multiplexer_recovery` — fails with the
not-connected error and writes nothing to the socket. -/
theorem c6_theorem (hub : Hub) (msg : String) (names : List String)
    (count0 : Nat) :
    send_msg false hub msg = (.error .notConnected, []) ∧
    get_slots_position false hub names count0 = (.error .notConnected, count0, []) ∧
    multiplexer_recovery false hub names count0 = (.error .notConnected, count0, []) :=
  ⟨rfl, rfl, rfl⟩

/-- Claim C5, counterexample: a read timeout while connected does NOT
become the empty-reply outcome — `send_msg` raises `asyncio.TimeoutError`
(the `wait_for` at component.py line 140 is not wrapped in a
`try`/`except`), so the claim is false at the always-timing-out hub. -/
theorem c5_counterexample :
    send_msg true alwaysTimeoutHub "1" = (.error .timeoutError, ["1\r"]) ∧
      (send_msg true alwaysTimeoutHub "1").1 ≠ .ok "\r" := by decide

/-- Claim C5, amended: while connected, a read that completes with the
empty string is normalized to the empty-reply outcome `"\r"`; a read
timeout is not caught and propagates as `asyncio.TimeoutError`. -/
theorem c5_theorem (hub : Hub) (msg : String) :
    (hub (msg ++ "\r") = .data "" →
      send_msg true hub msg = (.ok "\r", [msg ++ "\r"])) ∧
    (hub (msg ++ "\r") = .timeout →
      send_msg true hub msg = (.error .timeoutError, [msg ++ "\r"])) := by
  constructor <;> intro h <;> simp [send_msg, h]

/-- Witness for `c5_theorem` at the always-empty and always-timing-out
hubs. -/
theorem c5_witness :
    send_msg true alwaysEmptyHub "1" = (.ok "\r", ["1\r"]) ∧
      send_msg true alwaysTimeoutHub "1" = (.error .timeoutError, ["1\r"]) :=
  ⟨(c5_theorem alwaysEmptyHub "1").1 rfl, (c5_theorem alwaysTimeoutHub "1").2 rfl⟩

/-- Claim C3 (code bug): in `multiplexer_recovery`, `"SPC"` is written,
but `"QU"` never is — `reply3 = self.send_msg("QU")` at component.py line
236 creates a coroutine that is never awaited, so no `"QU"` line reaches
the hub.  At a connected link, one configured slot and an always-empty
hub, the whole recovery round writes exactly `["SPC\r", "1\r"]`. -/
theorem c3_theorem :
    multiplexer_recovery true alwaysEmptyHub oneSlotNames 0 =
      (.ok true, 1, ["SPC\r", "1\r"]) ∧
    "QU\r" ∉ ["SPC\r", "1\r"] := by decide

/-- Claim C4 (code bug): the recovery success flag is computed with Python
float truthiness (`elif positions[i]:`, component.py line 247).  With one
configured slot reading exactly `0.0` every configured slot yielded a
numeric reply, yet the flag is `False` (`bool(0.0)` is falsy); with one
configured slot left NaN by an empty reply the flag is `True`
(`bool(nan)` is truthy).  Both directions contradict the claim. -/
theorem c4_theorem :
    multiplexer_recovery true zeroHub oneSlotNames 0 =
      (.ok false, 0, ["SPC\r", "1\r"]) ∧
    (get_slots_position true zeroHub oneSlotNames 0).1 =
      .ok [some ⟨0, 6⟩, none, none, none, none, none, none, none] ∧
    multiplexer_recovery true alwaysEmptyHub slot2Names 0 =
      (.ok true, 1, ["SPC\r", "2\r"]) ∧
    (get_slots_position true alwaysEmptyHub slot2Names 0).1 =
      .ok [none, none, none, none, none, none, none, none] := by decide

/-- Claim C9: wire round-trip through the simulated hub.  The slot-3 query
is encoded as `"3" + CR`; the simulated hub (default table) replies
`"3:+0.002000\r"`; decoding stores the value `0.002` at 0-based index 2 of
the position vector. -/
theorem c9_theorem :
    send_msg true (mockHub defaultMockPositions) "3" =
      (.ok "3:+0.002000\r", ["3\r"]) ∧
    get_slots_position true (mockHub defaultMockPositions) slot3Names 0 =
      (.ok [none, none, some ⟨2000, 6⟩, none, none, none, none, none], 0,
        ["3\r"]) ∧
    PyDec.toRat ⟨2000, 6⟩ = 2 / 1000 := by
  refine ⟨by decide, by decide, ?_⟩
  norm_num [PyDec.toRat]

/-- Claim C1, counterexample: after slot 1 replies empty, the slot loop
does NOT stop — the slot-2 query is still written and its reading stored,
so the pass returns the full trace `["1\r", "2\r"]`, refuting "no further
slot queries are sent in that pass". -/
theorem c1_counterexample :
    get_slots_position true c1hub c1names 0 =
      (.ok [none, some ⟨1000, 6⟩, none, none, none, none, none, none], 1,
        ["1\r", "2\r"]) := by decide

/-- Claim C7: `pollWithRecovery` with a negative `maxResets` fails with
`ConfigurationError` eagerly, before any line is written to the socket. -/
theorem c7_theorem (hub : Hub) (names : List String) (m : Int) (h : m < 0) :
    pollWithRecovery hub names m = (.error .configurationError, []) := by
  simp [pollWithRecovery, h]

/-- Witness for `c7_theorem` at `maxResets = -1`. -/
theorem c7_witness :
    pollWithRecovery alwaysEmptyHub blankNames (-1) =
      (.error .configurationError, []) :=
  c7_theorem alwaysEmptyHub blankNames (-1) (by decide)

/-- The request primitive `send_msg` never raises the three-reads `IOError`. -/
theorem send_msg_fst_ne_ioError (c : Bool) (hub : Hub) (m : String) :
    (send_msg c hub m).1 ≠ .error .ioError := by
  cases c with
  | false => simp [send_msg]
  | true =>
    cases h : hub (m ++ "\r") with
    | data raw => by_cases hr : raw = "" <;> simp [send_msg, h, hr]
    | timeout => simp [send_msg, h]

/-- The slot loop can only raise exceptions coming from `send_msg` or from
`float()`, never the three-reads `IOError`. -/
theorem gspGo_fst_ne_ioError (c : Bool) (hub : Hub) (names : List String) :
    ∀ (i : Nat) (st : PollState),
      (gspGo c hub i names st).1 ≠ .error .ioError := by
  induction names with
  | nil => intro i st; simp [gspGo]
  | cons name rest ih =>
    intro i st
    simp only [gspGo]
    split
    · exact ih (i + 1) st
    · split
      next e w heq =>
        have hne := send_msg_fst_ne_ioError c hub (Nat.repr (i + 1))
        rw [heq] at hne
        simpa using hne
      next reply w heq =>
        split
        · split
          · exact ih (i + 1) _
          · simp
        · exact ih (i + 1) _

/-- The slot loop keeps `read_error_count` at most 2: the counter is reset
whenever it would pass 2 (component.py line 195, see
`multiplexerRecoveryCoroutineTruthy`). -/
theorem gspGo_count_le (c : Bool) (hub : Hub) (names : List String) :
    ∀ (i : Nat) (st : PollState), st.count ≤ 2 →
      ((gspGo c hub i names st).2).count ≤ 2 := by
  induction names with
  | nil => intro i st h; simpa [gspGo] using h
  | cons name rest ih =>
    intro i st h
    simp only [gspGo]
    split
    · exact ih (i + 1) st h
    · split
      next e w heq => simpa using h
      next reply w heq =>
        split
        · split
          · exact ih (i + 1) _ (by simpa using h)
          · simpa using h
        · apply ih (i + 1)
          by_cases h2 : st.count = 2
          · simp [h2, multiplexerRecoveryCoroutineTruthy]
          · have hlt : st.count < 2 := Nat.lt_of_le_of_ne h h2
            simp only [multiplexerRecoveryCoroutineTruthy]
            have h2b : (st.count == 2) = false := by simpa using h2
            simp [h2b]
            omega

/-- Claim C10: starting a pass with `read_error_count = 0`, the counter
never exceeds 2 when the slot loop ends, so the branch raising
`IOError("Three continuous reads of sensor ended in error.")` is
unreachable: `get_slots_position` never raises it, and returns a position
vector whenever it is connected and no transport or parse exception
occurs. -/
theorem c10_theorem (connected : Bool) (hub : Hub) (names : List String) :
    (get_slots_position connected hub names 0).2.1 ≤ 2 ∧
      (get_slots_position connected hub names 0).1 ≠ .error .ioError := by
  cases connected with
  | false => simp [get_slots_position]
  | true =>
    have hcount := gspGo_count_le true hub names 0 ⟨List.replicate 8 none, 0, []⟩ (by simp)
    have hne := gspGo_fst_ne_ioError true hub names 0 ⟨List.replicate 8 none, 0, []⟩
    simp only [get_slots_position]
    split
    · split
      next u st heq =>
        rw [heq] at hcount
        simp only at hcount
        have h3 : st.count ≤ 3 := by omega
        simp [h3, hcount]
      next e st heq =>
        rw [heq] at hcount hne
        simp only at hcount hne
        simp only [ne_eq, Except.error.injEq] at hne
        simpa using ⟨hcount, hne⟩
    · next h => exact absurd trivial h

/-- Reading inside a replicated list with `getD`. -/
theorem getD_replicate {α : Type} (a d : α) :
    ∀ (n i : Nat), i < n → (List.replicate n a).getD i d = a := by
  intro n
  induction n with
  | zero => intro i h; omega
  | succ m ih =>
    intro i h
    cases i with
    | zero => rfl
    | succ j => exact ih j (by omega)

/-- The slot loop never changes the length of the position list. -/
theorem gspGo_position_length (c : Bool) (hub : Hub) (names : List String) :
    ∀ (i : Nat) (st : PollState),
      ((gspGo c hub i names st).2).position.length = st.position.length := by
  induction names with
  | nil => intro i st; simp [gspGo]
  | cons name rest ih =>
    intro i st
    simp only [gspGo]
    split
    · exact ih (i + 1) st
    · split
      next e w heq => simp
      next reply w heq =>
        split
        · split
          · rw [ih (i + 1)]; simp
          · simp
        · rw [ih (i + 1)]; simp

/-- A position entry whose index no configured slot of the remaining scan
maps to is left untouched by the slot loop. -/
theorem gspGo_getD_untouched (c : Bool) (hub : Hub) (names : List String) :
    ∀ (i : Nat) (st : PollState) (j : Nat) (d : Option PyDec),
      (∀ k, k < names.length → names.getD k "" ≠ "" → i + k ≠ j) →
      ((gspGo c hub i names st).2).position.getD j d = st.position.getD j d := by
  induction names with
  | nil => intro i st j d _; simp [gspGo]
  | cons name rest ih =>
    intro i st j d hk
    have hkshift : ∀ k, k < rest.length → rest.getD k "" ≠ "" → (i + 1) + k ≠ j := by
      intro k hlt hne
      have := hk (k + 1) (by simpa using Nat.succ_lt_succ hlt) (by simpa using hne)
      omega
    simp only [gspGo]
    split
    · exact ih (i + 1) st j d hkshift
    · next hname =>
      have hij : i ≠ j := by
        have := hk 0 (by simp) (by simpa using hname)
        omega
      split
      next e w heq => simp
      next reply w heq =>
        have hset : ∀ (x : Option PyDec),
            (st.position.set i x).getD j d = st.position.getD j d := by
          intro x
          simp [List.getD_eq_getElem?_getD, List.getElem?_set_ne hij]
        split
        · split
          · rw [ih (i + 1) _ j d hkshift]; simpa using hset _
          · simp
        · rw [ih (i + 1) _ j d hkshift]; simpa using hset _

/-- Claim C8: every position vector `get_slots_position` returns has
exactly 8 entries, and every unconfigured slot (empty device name) holds
NaN in it. -/
theorem c8_theorem (connected : Bool) (hub : Hub) (names : List String)
    (count0 : Nat) (pos : List (Option PyDec)) (count1 : Nat)
    (w : List String)
    (hrun : get_slots_position connected hub names count0 = (.ok pos, count1, w)) :
    pos.length = 8 ∧
      ∀ i, i < 8 → names.getD i "" = "" → pos.getD i (some ⟨0, 0⟩) = none := by
  cases connected with
  | false => exact absurd hrun (by simp [get_slots_position])
  | true =>
    have hlen := gspGo_position_length true hub names 0 ⟨List.replicate 8 none, count0, []⟩
    cases hg : gspGo true hub 0 names ⟨List.replicate 8 none, count0, []⟩ with
    | mk res st =>
      rw [hg] at hlen
      simp only at hlen
      cases res with
      | error e =>
        rw [get_slots_position, if_pos rfl, hg] at hrun
        simp at hrun
      | ok u =>
        rw [get_slots_position, if_pos rfl, hg] at hrun
        by_cases h3 : st.count ≤ 3
        · simp only [h3, if_true, Prod.mk.injEq, Except.ok.injEq] at hrun
          obtain ⟨h1, h2, h4⟩ := hrun
          constructor
          · rw [← h1]
            simpa using hlen
          · intro i hi hblank
            have hu := gspGo_getD_untouched true hub names 0
              ⟨List.replicate 8 none, count0, []⟩ i (some ⟨0, 0⟩) (by
                intro k hk hne heq2
                rw [show (0 : Nat) + k = k by omega] at heq2
                rw [heq2] at hne
                exact hne hblank)
            rw [hg] at hu
            simp only at hu
            rw [← h1, hu]
            exact getD_replicate _ _ 8 i hi
        · simp [h3] at hrun

/-- Witness for `c8_theorem`: a blank configuration against the
always-empty hub returns eight NaNs. -/
theorem c8_witness :
    (List.replicate 8 (none : Option PyDec)).length = 8 ∧
      ∀ i, i < 8 → blankNames.getD i "" = "" →
        (List.replicate 8 (none : Option PyDec)).getD i (some ⟨0, 0⟩) = none :=
  c8_theorem true alwaysEmptyHub blankNames 0 (List.replicate 8 none) 0 []
    (by decide)

/-- The updated `read_error_count` after an empty reply stays at most 2. -/
theorem newCount_le (n : Nat) (h : n ≤ 2) :
    (if n == 2 && multiplexerRecoveryCoroutineTruthy then 0 else n + 1) ≤ 2 := by
  by_cases h2 : n = 2
  · simp [h2, multiplexerRecoveryCoroutineTruthy]
  · have hb : (n == 2) = false := by simpa using h2
    simp [hb]
    omega

/-- When every configured slot of the remaining scan gets a good reply (no
timeout, and non-empty replies parse), the slot loop completes the WHOLE
scan — an empty reply does not stop it — and writes exactly one query per
configured slot. -/
theorem gspGo_ok_of_goodReplies (hub : Hub) (names : List String) :
    ∀ (i : Nat) (st : PollState), st.count ≤ 2 →
      (∀ j, j < names.length → names.getD j "" ≠ "" →
        goodReply hub (Nat.repr (i + j + 1) ++ "\r") = true) →
      (gspGo true hub i names st).1 = .ok () ∧
        ((gspGo true hub i names st).2).sent = st.sent ++ configuredQueries i names := by
  induction names with
  | nil => intro i st _ _; simp [gspGo, configuredQueries]
  | cons name rest ih =>
    intro i st hcnt hg
    have hgshift : ∀ j, j < rest.length → rest.getD j "" ≠ "" →
        goodReply hub (Nat.repr (i + 1 + j + 1) ++ "\r") = true := by
      intro j hj hne
      have h1 := hg (j + 1) (by simpa using Nat.succ_lt_succ hj) (by simpa using hne)
      rw [show i + (j + 1) + 1 = i + 1 + j + 1 by omega] at h1
      exact h1
    simp only [gspGo, configuredQueries]
    split
    · exact ih (i + 1) st hcnt hgshift
    · next hname =>
      have hg0 := hg 0 (by simp) (by simpa using hname)
      rw [show i + 0 + 1 = i + 1 by omega] at hg0
      have hwire : ∃ r, send_msg true hub (Nat.repr (i + 1)) =
          (.ok r, [Nat.repr (i + 1) ++ "\r"]) ∧
          (r = "\r" ∨ ∃ q, parseReply r = some q) := by
        cases hh : hub (Nat.repr (i + 1) ++ "\r") with
        | timeout => simp [goodReply, hh] at hg0
        | data s =>
          have hg1 : s = "" ∨ s = "\r" ∨ ∃ q, parseReply s = some q := by
            simpa [goodReply, hh, Option.isSome_iff_exists, or_assoc] using hg0
          by_cases hs : s = ""
          · exact ⟨"\r", by simp [send_msg, hh, hs], Or.inl rfl⟩
          · refine ⟨s, by simp [send_msg, hh, hs], ?_⟩
            rcases hg1 with h1 | h1 | h1
            · exact absurd h1 hs
            · exact Or.inl h1
            · exact Or.inr h1
      obtain ⟨r, hsm, hr⟩ := hwire
      rw [hsm]
      by_cases hreq : r = "\r"
      · subst hreq
        obtain ⟨ho, hsent⟩ := ih (i + 1)
          ⟨st.position.set i none,
            if st.count == 2 && multiplexerRecoveryCoroutineTruthy then 0
            else st.count + 1,
            st.sent ++ [Nat.repr (i + 1) ++ "\r"]⟩
          (newCount_le st.count hcnt) hgshift
        exact ⟨ho, hsent.trans (by simp)⟩
      · obtain ⟨q, hq⟩ : ∃ q, parseReply r = some q := by
          rcases hr with h1 | h1
          · exact absurd h1 hreq
          · exact h1
        have hb : (r != "\r") = true := by simpa using hreq
        simp only [hb, if_true, hq]
        obtain ⟨ho, hsent⟩ := ih (i + 1)
          ⟨st.position.set i (some q), st.count,
            st.sent ++ [Nat.repr (i + 1) ++ "\r"]⟩
          hcnt hgshift
        exact ⟨ho, hsent.trans (by simp)⟩

/-- Claim C1, amended: when a configured slot returns an empty reply,
`get_slots_position` records NaN for that slot and CONTINUES scanning: as
long as every reply arrives without a transport timeout (and non-empty
replies parse), a pass queries every configured slot exactly once, in
ascending order, and still returns a position vector — there is no early
stop and no completeness flag. -/
theorem c1_theorem (hub : Hub) (names : List String)
    (h : ∀ j, j < names.length → names.getD j "" ≠ "" →
      goodReply hub (Nat.repr (j + 1) ++ "\r") = true) :
    (get_slots_position true hub names 0).2.2 = configuredQueries 0 names ∧
      ∃ pos, (get_slots_position true hub names 0).1 = .ok pos := by
  have h0 : ∀ j, j < names.length → names.getD j "" ≠ "" →
      goodReply hub (Nat.repr (0 + j + 1) ++ "\r") = true := by
    intro j hj hne
    rw [show 0 + j + 1 = j + 1 by omega]
    exact h j hj hne
  obtain ⟨ho, hsent⟩ := gspGo_ok_of_goodReplies hub names 0
    ⟨List.replicate 8 none, 0, []⟩ (by simp) h0
  have hcnt := gspGo_count_le true hub names 0 ⟨List.replicate 8 none, 0, []⟩ (by simp)
  cases hg : gspGo true hub 0 names ⟨List.replicate 8 none, 0, []⟩ with
  | mk res st =>
    rw [hg] at ho hsent hcnt
    simp only at ho hsent hcnt
    subst ho
    have h3 : st.count ≤ 3 := by omega
    rw [get_slots_position, if_pos rfl, hg]
    simp only [h3, if_true]
    exact ⟨by simpa using hsent, st.position, rfl⟩

/-- Witness for `c1_theorem`: slots 1 and 2 configured, slot 1 replying
empty — both queries are still written. -/
theorem c1_witness :
    (get_slots_position true c1hub c1names 0).2.2 = configuredQueries 0 c1names ∧
      ∃ pos, (get_slots_position true c1hub c1names 0).1 = .ok pos :=
  c1_theorem c1hub c1names (by decide)

/-- Against a hub that always replies empty, a spec-model pass with at
least one configured slot stops at the first configured slot, reporting
`isok = false` and leaving the vector unchanged. -/
theorem specPollOnceGo_empty (hub : Hub) (hE : ∀ l, hub l = .data "")
    (names : List String) :
    ∀ (i : Nat) (pos : List (Option PyDec)) (sent : List String),
      (∃ n ∈ names, n ≠ "") →
      ∃ w, specPollOnceGo hub i names pos sent = (.ok (pos, false), w) := by
  induction names with
  | nil => intro i pos sent hcfg; simp at hcfg
  | cons name rest ih =>
    intro i pos sent hcfg
    by_cases hname : name = ""
    · have hcfg2 : ∃ n ∈ rest, n ≠ "" := by
        rcases hcfg with ⟨n, hmem, hne⟩
        rcases List.mem_cons.mp hmem with h1 | h1
        · rw [h1, hname] at hne
          exact absurd rfl hne
        · exact ⟨n, h1, hne⟩
      simp only [specPollOnceGo]
      rw [if_pos hname]
      exact ih (i + 1) pos sent hcfg2
    · have hsm : send_msg true hub (Nat.repr (i + 1)) =
          (.ok "\r", [Nat.repr (i + 1) ++ "\r"]) := by
        simp [send_msg, hE (Nat.repr (i + 1) ++ "\r")]
      refine ⟨sent ++ [Nat.repr (i + 1) ++ "\r"], ?_⟩
      simp only [specPollOnceGo]
      rw [if_neg hname, hsm]
      rfl

/-- Against the always-empty hub, the spec-model retry loop runs its whole
budget: every re-poll fails again, so `k` remaining rounds add exactly `k`
attempts and `k` rounds, and the final pass is still not ok. -/
theorem specRecoveryGo_empty (hub : Hub) (names : List String)
    (hE : ∀ l, hub l = .data "") (hcfg : ∃ n ∈ names, n ≠ "") :
    ∀ (k : Nat) (vec0 : List (Option PyDec)) (a r : Nat) (sent : List String),
      ∃ vec w, specRecoveryGo hub names k (vec0, false) a r sent =
        (.ok ((vec, false), a + k, r + k), w) := by
  intro k
  induction k with
  | zero => intro vec0 a r sent; exact ⟨vec0, sent, by simp [specRecoveryGo]⟩
  | succ m ih =>
    intro vec0 a r sent
    have hspc : send_msg true hub "SPC" = (.ok "\r", ["SPC\r"]) := by
      simp [send_msg, hE "SPC\r"]
    have hqu : send_msg true hub "QU" = (.ok "\r", ["QU\r"]) := by
      simp [send_msg, hE "QU\r"]
    obtain ⟨w3, hpoll⟩ :=
      specPollOnceGo_empty hub hE names 0 (List.replicate 8 none) [] hcfg
    obtain ⟨vec, w4, hrec⟩ :=
      ih (List.replicate 8 none) (a + 1) (r + 1)
        (sent ++ ["SPC\r"] ++ ["QU\r"] ++ w3)
    refine ⟨vec, w4, ?_⟩
    simp only [specRecoveryGo, specPollOnce]
    rw [hspc, hqu, hpoll]
    simp only []
    rw [hrec]
    have ha : a + 1 + m = a + (m + 1) := by omega
    have hr2 : r + 1 + m = r + (m + 1) := by omega
    rw [ha, hr2]
    simp

/-- For every hub, the spec-model retry loop adds at most `k` attempts and
at most `k` rounds to its running counters. -/
theorem specRecoveryGo_bounds (hub : Hub) (names : List String) :
    ∀ (k : Nat) (last : List (Option PyDec) × Bool) (a r : Nat)
      (sent : List String) (res : (List (Option PyDec) × Bool) × Nat × Nat)
      (w : List String),
      specRecoveryGo hub names k last a r sent = (.ok res, w) →
      res.2.1 ≤ a + k ∧ res.2.2 ≤ r + k := by
  intro k
  induction k with
  | zero =>
    intro last a r sent res w h
    simp only [specRecoveryGo, Prod.mk.injEq, Except.ok.injEq] at h
    obtain ⟨h1, _⟩ := h
    rw [← h1]
    simp
  | succ m ih =>
    intro last a r sent res w h
    rw [specRecoveryGo] at h
    by_cases hok : last.2 = true
    · rw [if_pos hok] at h
      simp only [Prod.mk.injEq, Except.ok.injEq] at h
      obtain ⟨h1, _⟩ := h
      rw [← h1]
      constructor <;> simp
    · rw [if_neg hok] at h
      revert h
      split
      · intro h; exact absurd h (by simp)
      · split
        · intro h; exact absurd h (by simp)
        · split
          · intro h; exact absurd h (by simp)
          · intro h
            have := ih _ _ _ _ _ _ h
            omega

/-- Claim C2 (spec-modelled Recovery Controller): `pollWithRecovery` with
budget `N` makes at most `N` recovery rounds and at most `N + 1` poll
attempts; against a hub that replies empty to every command (and at least
one configured slot) it returns `isok = false` after exactly `N + 1`
attempts and `N` rounds. -/
theorem c2_theorem (hub : Hub) (names : List String) (N : Nat) :
    (∀ res w, pollWithRecovery hub names (N : Int) = (.ok res, w) →
      res.2.1 ≤ N + 1 ∧ res.2.2 ≤ N) ∧
    ((∀ l, hub l = .data "") → (∃ n ∈ names, n ≠ "") →
      ∃ vec w, pollWithRecovery hub names (N : Int) =
        (.ok ((vec, false), N + 1, N), w)) := by
  have hnonneg : ¬ ((N : Int) < 0) := by
    simp [Int.not_lt]
  constructor
  · intro res w h
    rw [pollWithRecovery, if_neg hnonneg] at h
    revert h
    split
    · intro h; exact absurd h (by simp)
    · next first w0 heq =>
      intro h
      have hb := specRecoveryGo_bounds hub names ((N : Int)).toNat first 1 0 w0 res w h
      rw [Int.toNat_natCast] at hb
      omega
  · intro hE hcfg
    obtain ⟨w0, hpoll⟩ :=
      specPollOnceGo_empty hub hE names 0 (List.replicate 8 none) [] hcfg
    obtain ⟨vec, w1, hrec⟩ :=
      specRecoveryGo_empty hub names hE hcfg N (List.replicate 8 none) 1 0 w0
    refine ⟨vec, w1, ?_⟩
    rw [pollWithRecovery, if_neg hnonneg]
    simp only [specPollOnce]
    rw [hpoll]
    simp only [Int.toNat_natCast]
    rw [hrec]
    have h1 : 1 + N = N + 1 := by omega
    have h2 : 0 + N = N := by omega
    rw [h1, h2]

/-- Witness for `c2_theorem` at budget 2, one configured slot and the
always-empty hub: both the bound part (at the concrete run returning 3
attempts and 2 rounds) and the exact exhaustion part. -/
theorem c2_witness :
    (3 ≤ 2 + 1 ∧ 2 ≤ 2) ∧
      ∃ vec w, pollWithRecovery alwaysEmptyHub oneSlotNames ((2 : Nat) : Int) =
        (.ok ((vec, false), 2 + 1, 2), w) :=
  ⟨(c2_theorem alwaysEmptyHub oneSlotNames 2).1
      ((List.replicate 8 none, false), 3, 2)
      ["1\r", "SPC\r", "QU\r", "1\r", "SPC\r", "QU\r", "1\r"] (by decide),
    (c2_theorem alwaysEmptyHub oneSlotNames 2).2 (fun _ => rfl)
      ⟨"a", by decide, by decide⟩⟩

end TsPmd
